import Mathlib

/-! Shallow embedding of the core of `agwc` (`src/main.go`): the ISO-8601
duration parser, calendar-aware duration application, and the
interval-to-grid alignment engine, together with proofs about the
claims of the design specification.

Modelling conventions:

* `time.Time` is modelled by `GoTime`: `sec` is the absolute instant in
  seconds since the Unix epoch, `off` the fixed zone offset in seconds
  (the only location data an RFC3339 timestamp carries).  Nanoseconds
  and the monotonic reading are omitted: no code path under scrutiny
  produces or inspects sub-second values, and `Round(0)` only strips
  the monotonic reading, which the model never carries.
  `Before`/`Equal`/`After` compare the absolute instant, i.e. `sec`.
* Go `int64` arithmetic is modelled on `ℤ`; where the source can
  overflow (the `7 * weeks` multiplication in the duration parser) the
  twos-complement wraparound is made explicit via `wrap64`.
* Go map values default to the zero value, so `map[string]int` becomes
  a total function `String → ℕ` and `map[string][]weatherPoint` a total
  function `String → List weatherPoint`.
* Division `/` and `%` on `ℤ` are Euclidean (flooring, for the positive
  divisors used here), matching the flooring normalisations of Go in the
  `time` package internals.
* Errors carry no data that any claim inspects, so fallible functions
  return `Option`, with `none` for the error return (for
  `parseISO8601Duration` the only error kind is `InvalidDuration`) and,
  in `display`, for the `panic` on an inverted range (`InvertedRange`).
-/

namespace Agwc

/-- Model of Go `time.Time`: absolute seconds since the Unix epoch plus
the fixed zone offset (seconds east of UTC) used for civil-time
computations. -/
structure GoTime where
  sec : ℤ
  off : ℤ
deriving DecidableEq

/-- Function `compareTimeToRange` from `src/main.go`:
negative if `test` is before `start`, positive if `test` is after or
equal to `endT`, zero if `test` is within the range.  The source first
calls `Round(0)` on all three times, which only strips the monotonic
clock reading and is the identity in this model. -/
def compareTimeToRange (test startT endT : GoTime) : ℤ :=
  if test.sec < startT.sec then -1
  else if test.sec = endT.sec ∨ endT.sec < test.sec then 1
  else 0

/-- Go `t.Truncate(time.Hour)`: round down to a whole hour.  Both the
Unix epoch and the absolute epoch of Go fall on an hour boundary, so this is
flooring of the Unix-seconds value to a multiple of 3600. -/
def truncHour (t : GoTime) : GoTime :=
  ⟨t.sec - t.sec % 3600, t.off⟩

/-! Calendar arithmetic.  `applyISO8601Duration` in the source calls
`time.Time.AddDate`, which reads the civil date in the location of the time,
adds the year/month/day deltas, and rebuilds the instant via
`time.Date`, normalising an out-of-range month into the year and
letting an out-of-range day spill linearly into the following months
(proleptic Gregorian calendar).  `civilFromDays`/`daysFromCivil` model
that calendar correspondence between a day number (days since
1970-01-01) and a civil date; the shifted 400-year-era representation
(eras begin on 0000-03-01) is standard for Gregorian conversions, and
the year-of-era is found by an estimate-and-correct step.
-/

/-- A civil (proleptic Gregorian) date. -/
structure CivilDate where
  y : ℤ
  m : ℤ
  d : ℤ
deriving DecidableEq

/-- Days from the start of a (March-based) 400-year era to the start of
year-of-era `y`: 365 per year plus a leap day per 4 years, minus one
per century (`y ∈ [0, 400]`; the 400-year leap day of the era itself falls
outside this range). -/
def dBefore (y : ℤ) : ℤ := 365 * y + y / 4 - y / 100

/-- Year of era (in `[0, 399]`) containing day-of-era `doe`: estimate
by `doe / 365` (never an underestimate, and an overestimate by at most
one year), cap at 399, and correct downward when the estimated year
starts after `doe`. -/
def yoeOf (doe : ℤ) : ℤ :=
  let y0 := doe / 365
  let y1 := if y0 ≤ 399 then y0 else 399
  if doe < dBefore y1 then y1 - 1 else y1

/-- Shifted month index (`0` = March … `11` = February) of a
day-of-year `doy ∈ [0, 365]` in the March-based year. -/
def mpOf (doy : ℤ) : ℤ := (5 * doy + 2) / 153

/-- Civil date of a day number (days since 1970-01-01), proleptic
Gregorian; the produced month is always in `[1, 12]`. -/
def civilFromDays (z : ℤ) : CivilDate :=
  let era := (z + 719468) / 146097
  let doe := z + 719468 - era * 146097
  let yoe := yoeOf doe
  let doy := doe - dBefore yoe
  let mp := mpOf doy
  let d := doy - (153 * mp + 2) / 5 + 1
  let m := if mp < 10 then mp + 3 else mp - 9
  ⟨(if m ≤ 2 then yoe + era * 400 + 1 else yoe + era * 400), m, d⟩

/-- Day number (days since 1970-01-01) of a civil date.  The month must
be in `[1, 12]`; the day may lie outside the length of the month, in which
case it spills linearly into neighbouring months exactly as the Go
function `time.Date` lets an overflowing day roll over (Jan 31 plus one month is
Feb 31, i.e. Mar 2 or Mar 3 depending on leap year). -/
def daysFromCivil (c : CivilDate) : ℤ :=
  let y := if c.m ≤ 2 then c.y - 1 else c.y
  let era := y / 400
  let yoe := y - era * 400
  let mp := if 2 < c.m then c.m - 3 else c.m + 9
  let doy := (153 * mp + 2) / 5 + c.d - 1
  let doe := yoe * 365 + yoe / 4 - yoe / 100 + doy
  era * 146097 + doe - 719468

/-- Go `time.Date(year, month, day, hh, mm, ss, 0, loc)` for a
fixed-offset location, with the clock fields already in range (as they
are when produced by `Clock()`): normalise the month into `[1, 12]`
adjusting the year (the Go `norm` helper), convert the civil fields to an
absolute instant, and subtract the zone offset. -/
def goDate (year month day hh mm ss off : ℤ) : GoTime :=
  let m0 := month - 1
  let y := year + m0 / 12
  let m := m0 % 12 + 1
  ⟨daysFromCivil ⟨y, m, day⟩ * 86400 + hh * 3600 + mm * 60 + ss - off, off⟩

/-- Go `t.AddDate(years, months, days)`: read the civil date and clock
in the location of `t`, add the deltas to the date fields, and rebuild via
`goDate`. -/
def addDate (t : GoTime) (years months days : ℤ) : GoTime :=
  let civil := t.sec + t.off
  let z := civil / 86400
  let sod := civil % 86400
  let c := civilFromDays z
  goDate (c.y + years) (c.m + months) (c.d + days)
    (sod / 3600) (sod % 3600 / 60) (sod % 60) t.off

/-- Structure `iso8601Duration` from `src/main.go`: six `int64` fields. -/
structure iso8601Duration where
  years : ℤ
  months : ℤ
  days : ℤ
  hours : ℤ
  minutes : ℤ
  seconds : ℤ
deriving DecidableEq

/-- The all-zero duration (also the parse of the valid string `P`). -/
def zeroISO8601Duration : iso8601Duration := ⟨0, 0, 0, 0, 0, 0⟩

/-- The clock part of `applyISO8601Duration`: the three trailing
`.Add` calls, `t.Add(hours*Hour).Add(minutes*Minute).Add(seconds*Second)`,
each a fixed-length shift of the absolute instant. -/
def addClock (t : GoTime) (d : iso8601Duration) : GoTime :=
  ⟨t.sec + d.hours * 3600 + d.minutes * 60 + d.seconds, t.off⟩

/-- Function `applyISO8601Duration` from `src/main.go`:
`t.AddDate(years, months, days)` first (calendar-aware), then the
hour/minute/second clock offsets. -/
def applyISO8601Duration (t : GoTime) (d : iso8601Duration) : GoTime :=
  addClock (addDate t d.years d.months d.days) d

/-- The opposite application order, written only to contrast with the
the `applyISO8601Duration` of the source: clock offsets first, calendar
components afterwards.  The source does not do this. -/
def applyClockThenCalendar (t : GoTime) (d : iso8601Duration) : GoTime :=
  addDate (addClock t d) d.years d.months d.days

/-! The ISO-8601 duration parser.  The source matches the anchored regular
expression

  `^P((?P<numYears>\d+)Y)?((?P<numMonths>\d+)M)?((?P<numDays>\d+)D)?`
  `(T((?P<numHours>\d+)H)?((?P<numMinutes>\d+)M)?((?P<numSeconds>\d+)S)?)?$`
  `|^P(?P<numWeeks>\d+)W$`

and then converts each captured digit string with
`strconv.ParseInt(_, 10, 64)`.  Because every numeric component is a
maximal digit run that must be followed by its designator letter, the
regular expression matches deterministically; the matcher below
consumes the components sequentially, returning each capture as its
digit list (empty = group unmatched, like an empty Go submatch string).
The two alternation branches accept disjoint languages (the general
branch never contains `W`), so testing the week branch first is
equivalent to the `weekstr` non-emptiness test of the source on the combined match.
-/

/-- Digit list to its base-10 value. -/
def digitsToNat (ds : List Char) : ℕ :=
  ds.foldl (fun n c => 10 * n + (c.toNat - 48)) 0

/-- Go `strconv.ParseInt(s, 10, 64)` on a non-empty digit string: the
value, or `none` when it exceeds the `int64` range (the only failure
mode for an all-digit string). -/
def parseInt64 (ds : List Char) : Option ℤ :=
  if digitsToNat ds ≤ 9223372036854775807 then some (digitsToNat ds : ℤ) else none

/-- Twos-complement wraparound of a Go `int64` arithmetic result. -/
def wrap64 (x : ℤ) : ℤ :=
  (x + 9223372036854775808) % 18446744073709551616 - 9223372036854775808

/-- Match one optional `(\d+)c` component: if the input starts with a
non-empty digit run followed by the designator `c`, consume both and
return the digits; otherwise leave the input unchanged with an empty
capture. -/
def tryNumComp (c : Char) (s : List Char) : List Char × List Char :=
  let ds := s.takeWhile Char.isDigit
  match s.dropWhile Char.isDigit with
  | d :: rest => if ds ≠ [] ∧ d = c then (ds, rest) else ([], s)
  | [] => ([], s)

/-- Captures of the general-form branch, one digit list per named
group; an empty list is an unmatched group (an empty Go submatch). -/
structure durationCaptures where
  numYears : List Char
  numMonths : List Char
  numDays : List Char
  numHours : List Char
  numMinutes : List Char
  numSeconds : List Char
deriving DecidableEq

/-- The general-form branch of the duration regular expression:
`P`, then optional `Y`/`M`/`D` components, then an optional `T` block
with optional `H`/`M`/`S` components, anchored at both ends.  A bare
`T` block (no clock component after it) matches. -/
def matchGeneral : List Char → Option durationCaptures
  | 'P' :: r0 =>
    let p1 := tryNumComp 'Y' r0
    let p2 := tryNumComp 'M' p1.2
    let p3 := tryNumComp 'D' p2.2
    match p3.2 with
    | [] => some ⟨p1.1, p2.1, p3.1, [], [], []⟩
    | 'T' :: r4 =>
      let p4 := tryNumComp 'H' r4
      let p5 := tryNumComp 'M' p4.2
      let p6 := tryNumComp 'S' p5.2
      if p6.2 = [] then some ⟨p1.1, p2.1, p3.1, p4.1, p5.1, p6.1⟩ else none
    | _ => none
  | _ => none

/-- The week branch of the duration regular expression: exactly
`P(\d+)W`, returning the digit capture. -/
def matchWeek : List Char → Option (List Char)
  | 'P' :: r0 =>
    if r0.takeWhile Char.isDigit ≠ [] ∧ r0.dropWhile Char.isDigit = ['W']
    then some (r0.takeWhile Char.isDigit) else none
  | _ => none

/-- One field of the general form: an unmatched capture contributes 0
(the source leaves the zero value in place), a matched one goes through
`ParseInt`. -/
def parseField (ds : List Char) : Option ℤ :=
  if ds = [] then some 0 else parseInt64 ds

/-- Function `parseISO8601Duration` from `src/main.go`.  `none` is the
`InvalidDuration` error return (no regexp match, or a numeric component
out of `int64` range).  The week branch computes `days = 7 * weeks` in
`int64` arithmetic, hence the explicit wraparound. -/
def parseISO8601Duration (s : String) : Option iso8601Duration :=
  match matchWeek s.data with
  | some ws =>
    match parseInt64 ws with
    | some w => some ⟨0, 0, wrap64 (7 * w), 0, 0, 0⟩
    | none => none
  | none =>
    match matchGeneral s.data with
    | some caps => do
      let ys ← parseField caps.numYears
      let mos ← parseField caps.numMonths
      let ds ← parseField caps.numDays
      let hs ← parseField caps.numHours
      let mins ← parseField caps.numMinutes
      let ss ← parseField caps.numSeconds
      some ⟨ys, mos, ds, hs, mins, ss⟩
    | none => none

/-! The alignment engine (`display` in `src/main.go`) and the series
assembly sort step of `getWeatherData`.
-/

/-- Structure `weatherPoint` from `src/main.go`.  `Value` is a Go `float64` that
the core only stores and republishes, never computes with, so an exact
numeric type is a faithful carrier for it. -/
structure weatherPoint where
  StartTime : GoTime
  EndTime : GoTime
  Value : ℚ
  Unit : String
deriving DecidableEq

/-- One cell appended to a display row: either the value of a point with its
unit (the source renders it as `"%05.2f %s"`) or the `No Data`
sentinel string. -/
inductive displayCell where
  | value : ℚ → String → displayCell
  | noData : displayCell
deriving DecidableEq

/-- Structure `displayRow` from `src/main.go`: the hour and the cells appended
for it. -/
structure displayRow where
  atTime : GoTime
  values : List displayCell
deriving DecidableEq

/-- The inner cursor loop of `display` for one hour and one property:
`for idx[property] < len(points) { ... }` with `points.drop i` the
slice from the current cursor.  Returns the cell appended for this hour
(`none` when the loop exits without appending, i.e. the cursor is at or
past the end of the series) and the new cursor value. -/
def alignScan (curr : GoTime) : List weatherPoint → ℕ → Option displayCell × ℕ
  | [], i => (none, i)
  | p :: rest, i =>
    let cmp := compareTimeToRange curr p.StartTime p.EndTime
    if cmp = 0 then (some (displayCell.value p.Value p.Unit), i)
    else if cmp < 0 then (some displayCell.noData, i)
    else alignScan curr rest (i + 1)

/-- The row body of one hour: iterate the requested properties in order,
running the cursor loop for each against its series, appending the
produced cell (if any) and updating the cursor of that property. -/
def rowFor (wd : String → List weatherPoint) (props : List String)
    (curr : GoTime) (idx : String → ℕ) : List displayCell × (String → ℕ) :=
  props.foldl
    (fun acc p =>
      let res := alignScan curr ((wd p).drop (acc.2 p)) (acc.2 p)
      (acc.1 ++ res.1.toList, fun q => if q = p then res.2 else acc.2 q))
    ([], idx)

/-- The master hour loop of `display`:
`for curr := start; !curr.After(end); curr = curr.Add(time.Hour)`,
threading the per-property cursor map across hours. -/
def displayLoop (wd : String → List weatherPoint) (props : List String)
    (idx : String → ℕ) (curr e : GoTime) : List displayRow :=
  if e.sec < curr.sec then []
  else
    let r := rowFor wd props curr idx
    ⟨curr, r.1⟩ :: displayLoop wd props r.2 ⟨curr.sec + 3600, curr.off⟩ e
termination_by (e.sec + 3600 - curr.sec).toNat
decreasing_by
  simp_wf
  omega

/-- Function `display` from `src/main.go`, up to the fmt printing of the
computed rows (excluded rendering): truncate both clock ends to whole
hours, panic (`none`, the `InvertedRange` failure) when the start is
after the end, otherwise produce one row per hour, inclusive.  Cursors
start at zero for every property. -/
def display (wd : String → List weatherPoint) (props : List String)
    (startT endT : GoTime) : Option (List displayRow) :=
  let s := truncHour startT
  let e := truncHour endT
  if e.sec < s.sec then none
  else some (displayLoop wd props (fun _ => 0) s e)

/-- The sort comparator of `getWeatherData` (line 401), verbatim:
`points[i].StartTime.Before(points[j].EndTime)` — the start of the
candidate against the END of the other point. -/
def goLess (a b : weatherPoint) : Bool :=
  a.StartTime.sec < b.EndTime.sec

/-- Insert `x` into the reversed already-processed prefix, bubbling it
left past each neighbour `y` while `goLess x y`, exactly as one
insertion-sort step of the Go `sort.Slice` swaps leftward. -/
def bubbleIns (x : weatherPoint) : List weatherPoint → List weatherPoint
  | [] => [x]
  | y :: ys => if goLess x y then y :: bubbleIns x ys else x :: y :: ys

/-- The sort step of `getWeatherData` (lines 400-401):
`sort.Slice(points, func(i, j) { return points[i].StartTime.Before(points[j].EndTime) })`.
For slices shorter than 12 elements (all inputs considered here) the Go
function `sort.Slice` is insertion sort, modelled as a left fold of
`bubbleIns` over the input order. -/
def sortPoints (ps : List weatherPoint) : List weatherPoint :=
  (ps.foldl (fun acc x => bubbleIns x acc) []).reverse

/-! Concrete inputs used by the claim theorems.  Times are Unix seconds at
offset 0; `36000` is 10:00, `39600` 11:00, `43200` 12:00, `46800`
13:00 of 1970-01-01.
-/

/-- The property name of the alignment scenario of the specification. -/
def tempName : String := "temperature"

/-- An arbitrary unit token for the scenario points. -/
def fahrenheit : String := "F"

/-- Scenario point `(10:00-11:00, 50.0)`. -/
def tempPoint1 : weatherPoint := ⟨⟨36000, 0⟩, ⟨39600, 0⟩, 50, fahrenheit⟩

/-- Scenario point `(12:00-13:00, 55.0)`. -/
def tempPoint2 : weatherPoint := ⟨⟨43200, 0⟩, ⟨46800, 0⟩, 55, fahrenheit⟩

/-- The scenario weather data: the temperature series, nothing else. -/
def wdScenario : String → List weatherPoint :=
  fun p => if p = tempName then [tempPoint1, tempPoint2] else []

/-- A point covering `[10:00, 20:00)`, arriving first. -/
def ptWide : weatherPoint := ⟨⟨36000, 0⟩, ⟨72000, 0⟩, 1, fahrenheit⟩

/-- A point covering `[11:00, 12:00)`, arriving second; its start is
after the start of `ptWide` but before the end of `ptWide`. -/
def ptNarrow : weatherPoint := ⟨⟨39600, 0⟩, ⟨43200, 0⟩, 2, fahrenheit⟩

/-- Duration string for three weeks. -/
def strP3W : String := "P3W"

/-- Duration string mixing the week designator with a day component. -/
def strP3W1D : String := "P3W1D"

/-- The general-form example string of the specification. -/
def strGen : String := "P1Y2M10DT2H30M"

/-- The empty string. -/
def strEmpty : String := ""

/-- A duration string missing the leading `P`. -/
def str1Y : String := "1Y"

/-- One day followed by a bare `T` with no clock component. -/
def strP1DT : String := "P1DT"

/-- The bare `P`, a valid zero duration. -/
def strP : String := "P"

/-- A week form whose count is `2^61`: it parses within `int64`, but
`7 * weeks` overflows. -/
def strOverflowWeeks : String := "P2305843009213693952W"

/-! Helper theorems about the calendar correspondence, shared by the
duration-application claims.
-/

/-- The estimate-and-correct year-of-era computation is correct: for a
day-of-era in `[0, 146097)` it lands in `[0, 399]`, starts at or before
the day, and leaves a day-of-year of at most 365. -/
theorem yoeOf_range (doe : ℤ) (h0 : 0 ≤ doe) (h1 : doe < 146097) :
    0 ≤ yoeOf doe ∧ yoeOf doe ≤ 399 ∧
      dBefore (yoeOf doe) ≤ doe ∧ doe - dBefore (yoeOf doe) ≤ 365 := by
  unfold yoeOf dBefore
  dsimp only
  split_ifs <;> omega

/-- Rebuilding the day number from the era/year-of-era/day-of-year/
month-point decomposition inverts the decomposition, and the produced
civil month lies in `[1, 12]`. -/
theorem daysFromCivil_reassemble (z era doe yoe doy mp : ℤ)
    (h1 : era = (z + 719468) / 146097)
    (h2 : doe = z + 719468 - era * 146097)
    (h3 : 0 ≤ yoe ∧ yoe ≤ 399)
    (h4 : doy = doe - (365 * yoe + yoe / 4 - yoe / 100))
    (h5 : 0 ≤ doy ∧ doy ≤ 365)
    (h6 : mp = (5 * doy + 2) / 153) :
    daysFromCivil
        ⟨(if (if mp < 10 then mp + 3 else mp - 9) ≤ 2 then yoe + era * 400 + 1
            else yoe + era * 400),
          (if mp < 10 then mp + 3 else mp - 9),
          doy - (153 * mp + 2) / 5 + 1⟩ = z ∧
      1 ≤ (if mp < 10 then mp + 3 else mp - 9) ∧
        (if mp < 10 then mp + 3 else mp - 9) ≤ 12 := by
  obtain ⟨h3a, h3b⟩ := h3
  obtain ⟨h5a, h5b⟩ := h5
  have hmpa : 0 ≤ mp := by omega
  have hmpb : mp ≤ 11 := by omega
  unfold daysFromCivil
  dsimp only
  by_cases hlt : mp < 10
  · have hne : ¬ (mp + 3 ≤ 2) := by omega
    have hgt : 2 < mp + 3 := by omega
    simp only [if_pos hlt, if_neg hne, if_pos hgt]
    have a4 : mp + 3 - 3 = mp := by ring
    have a2 : (yoe + era * 400) / 400 = era := by omega
    rw [a4, a2]
    have a3 : yoe + era * 400 - era * 400 = yoe := by ring
    rw [a3]
    refine ⟨by omega, by omega, by omega⟩
  · have hle : mp - 9 ≤ 2 := by omega
    have hge : ¬ (2 < mp - 9) := by omega
    simp only [if_neg hlt, if_pos hle, if_neg hge]
    have a1 : yoe + era * 400 + 1 - 1 = yoe + era * 400 := by ring
    have a4 : mp - 9 + 9 = mp := by ring
    rw [a1, a4]
    have a2 : (yoe + era * 400) / 400 = era := by omega
    rw [a2]
    have a3 : yoe + era * 400 - era * 400 = yoe := by ring
    rw [a3]
    refine ⟨by omega, by omega, by omega⟩

/-- The calendar correspondence round-trips: converting a day number to
a civil date and back is the identity, and the produced month is always
in `[1, 12]`. -/
theorem daysFromCivil_civilFromDays (z : ℤ) :
    daysFromCivil (civilFromDays z) = z ∧
      1 ≤ (civilFromDays z).m ∧ (civilFromDays z).m ≤ 12 := by
  have hr := yoeOf_range (z + 719468 - (z + 719468) / 146097 * 146097)
    (by omega) (by omega)
  have h4' : z + 719468 - (z + 719468) / 146097 * 146097 -
      dBefore (yoeOf (z + 719468 - (z + 719468) / 146097 * 146097)) =
    z + 719468 - (z + 719468) / 146097 * 146097 -
      (365 * yoeOf (z + 719468 - (z + 719468) / 146097 * 146097) +
        yoeOf (z + 719468 - (z + 719468) / 146097 * 146097) / 4 -
        yoeOf (z + 719468 - (z + 719468) / 146097 * 146097) / 100) := by
    unfold dBefore; ring
  have h5' : 0 ≤ z + 719468 - (z + 719468) / 146097 * 146097 -
        dBefore (yoeOf (z + 719468 - (z + 719468) / 146097 * 146097)) ∧
      z + 719468 - (z + 719468) / 146097 * 146097 -
        dBefore (yoeOf (z + 719468 - (z + 719468) / 146097 * 146097)) ≤ 365 :=
    ⟨by omega, by omega⟩
  exact daysFromCivil_reassemble z
    ((z + 719468) / 146097)
    (z + 719468 - (z + 719468) / 146097 * 146097)
    (yoeOf (z + 719468 - (z + 719468) / 146097 * 146097))
    (z + 719468 - (z + 719468) / 146097 * 146097 -
      dBefore (yoeOf (z + 719468 - (z + 719468) / 146097 * 146097)))
    (mpOf (z + 719468 - (z + 719468) / 146097 * 146097 -
      dBefore (yoeOf (z + 719468 - (z + 719468) / 146097 * 146097))))
    rfl rfl ⟨hr.1, hr.2.1⟩ h4' h5' rfl

/-- Function `goDate` rebuilt from the civil date and clock of an instant
returns that instant. -/
theorem goDate_rebuild (s o cy cm cd : ℤ)
    (hz : daysFromCivil ⟨cy, cm, cd⟩ = (s + o) / 86400)
    (hm1 : 1 ≤ cm) (hm2 : cm ≤ 12) :
    goDate (cy + 0) (cm + 0) (cd + 0) ((s + o) % 86400 / 3600)
      ((s + o) % 86400 % 3600 / 60) ((s + o) % 86400 % 60) o = ⟨s, o⟩ := by
  unfold goDate
  dsimp only
  have e1 : cm + 0 - 1 = cm - 1 := by ring
  have e2 : (cm - 1) / 12 = 0 := by omega
  have e3 : (cm - 1) % 12 = cm - 1 := by omega
  rw [e1, e2, e3]
  have e4 : cy + 0 + 0 = cy := by ring
  have e5 : cm - 1 + 1 = cm := by ring
  have e6 : cd + 0 = cd := by ring
  rw [e4, e5, e6, hz]
  have e7 : (s + o) / 86400 * 86400 + (s + o) % 86400 / 3600 * 3600 +
      (s + o) % 86400 % 3600 / 60 * 60 + (s + o) % 86400 % 60 - o = s := by omega
  rw [e7]

/-- Go `AddDate(0, 0, 0)` reads the civil fields and rebuilds the same
instant: the identity. -/
theorem addDate_zero (t : GoTime) : addDate t 0 0 0 = t := by
  obtain ⟨s, o⟩ := t
  obtain ⟨hz, hm1, hm2⟩ := daysFromCivil_civilFromDays ((s + o) / 86400)
  show goDate ((civilFromDays ((s + o) / 86400)).y + 0)
      ((civilFromDays ((s + o) / 86400)).m + 0)
      ((civilFromDays ((s + o) / 86400)).d + 0)
      ((s + o) % 86400 / 3600) ((s + o) % 86400 % 3600 / 60) ((s + o) % 86400 % 60)
      o = ⟨s, o⟩
  exact goDate_rebuild s o _ _ _ hz hm1 hm2

/-! The claim theorems.
-/

/-- Claim C1: on the very scenario of the specification (temperature series
`[(10:00-11:00, 50), (12:00-13:00, 55)]`, master clock 10:00..13:00
inclusive), the engine is claimed to emit a `No Data` cell for every
hour whose cursor has reached the end of the series, so that each row
carries one cell per requested property.  Evaluating the code shows
otherwise: the first three rows match the claim, but at 13:00 the
cursor is exhausted (`i = 2 ≥ len = 2`), the inner loop exits without
appending anything, and the row carries an empty cell list instead of
the `No Data` sentinel. -/
theorem c1_scenario_eval :
    display wdScenario [tempName] ⟨36000, 0⟩ ⟨46800, 0⟩ =
      some [⟨⟨36000, 0⟩, [displayCell.value 50 fahrenheit]⟩,
        ⟨⟨39600, 0⟩, [displayCell.noData]⟩,
        ⟨⟨43200, 0⟩, [displayCell.value 55 fahrenheit]⟩,
        ⟨⟨46800, 0⟩, []⟩] := by
  simp [display, truncHour, displayLoop, rowFor, alignScan, compareTimeToRange,
    wdScenario, tempName, tempPoint1, tempPoint2]

/-- Claim C2: the series handed to the engine is claimed to be sorted
ascending by interval start time regardless of arrival order.  The
comparator of the sort step compares a start against an END
(`points[i].StartTime.Before(points[j].EndTime)`), and on the two
points `[10:00, 20:00)` then `[11:00, 12:00)` the sort swaps them,
returning start times `11:00, 10:00` — not ascending. -/
theorem c2_sort_eval :
    sortPoints [ptWide, ptNarrow] = [ptNarrow, ptWide] ∧
      (sortPoints [ptWide, ptNarrow]).map (fun p => p.StartTime.sec) =
        [39600, 36000] ∧
      ¬ (39600 : ℤ) ≤ 36000 := by
  decide

/-- Claim C3, counterexample: the claim asserts
`compareTimeToRange(start, start, end) = 0` for every interval, but for
the degenerate interval with `start = end` — producible from the valid
zero-duration string `P` — the start instant is classified
after-or-equal (result 1), not covered. -/
theorem c3_degenerate_counterexample :
    parseISO8601Duration strP = some zeroISO8601Duration ∧
      applyISO8601Duration ⟨0, 0⟩ zeroISO8601Duration = ⟨0, 0⟩ ∧
      ¬ compareTimeToRange ⟨0, 0⟩ ⟨0, 0⟩ ⟨0, 0⟩ = 0 := by
  refine ⟨by decide, by decide, by decide⟩

/-- Claim C3, amended: for every interval whose start is strictly
before its end, the start instant is covered
(`compareTimeToRange = 0`) and the end instant is not
(`compareTimeToRange = 1`, after-or-equal): the half-open boundary
law. -/
theorem c3_half_open (s e : GoTime) (h : s.sec < e.sec) :
    compareTimeToRange s s e = 0 ∧ compareTimeToRange e s e = 1 := by
  unfold compareTimeToRange
  refine ⟨?_, ?_⟩ <;> split_ifs <;> omega

/-- Witness for the amended claim C3 at the interval
`[10:00, 11:00)`. -/
theorem c3_half_open_witness :
    (36000 : ℤ) < 39600 ∧
      (compareTimeToRange ⟨36000, 0⟩ ⟨36000, 0⟩ ⟨39600, 0⟩ = 0 ∧
        compareTimeToRange ⟨39600, 0⟩ ⟨36000, 0⟩ ⟨39600, 0⟩ = 1) :=
  ⟨by decide, c3_half_open ⟨36000, 0⟩ ⟨39600, 0⟩ (by decide)⟩

/-- Claim C4: the engine fails (`InvertedRange`, the `panic` modelled
as `none`) if and only if the hour-truncated start strictly exceeds the
hour-truncated end, and equal truncated ends produce exactly one
row. -/
theorem c4_inverted_range (wd : String → List weatherPoint) (props : List String)
    (s e : GoTime) :
    (display wd props s e = none ↔ (truncHour e).sec < (truncHour s).sec) ∧
      ((truncHour s).sec = (truncHour e).sec →
        Option.map List.length (display wd props s e) = some 1) := by
  constructor
  · unfold display
    dsimp only
    split_ifs with h
    · simpa using h
    · simpa using h
  · intro heq
    unfold display
    dsimp only
    rw [if_neg (by omega)]
    rw [displayLoop.eq_def]
    rw [if_neg (by omega)]
    dsimp only
    rw [displayLoop.eq_def]
    dsimp only
    rw [if_pos (by omega)]
    simp

/-- Witness for claim C4 at an equal (already hour-aligned) start and
end: exactly one row. -/
theorem c4_inverted_range_witness :
    (truncHour ⟨3600, 0⟩).sec = (truncHour ⟨3600, 0⟩).sec ∧
      Option.map List.length (display wdScenario [tempName] ⟨3600, 0⟩ ⟨3600, 0⟩) =
        some 1 :=
  ⟨rfl, (c4_inverted_range wdScenario [tempName] ⟨3600, 0⟩ ⟨3600, 0⟩).2 rfl⟩

/-- Claim C5: the week grammar and the general grammar are mutually
exclusive: `P3W` parses to 21 days with every other field zero, and
`P3W1D`, which mixes the week designator with a day component, matches
neither branch and is rejected. -/
theorem c5_week_grammar_exclusive :
    parseISO8601Duration strP3W = some ⟨0, 0, 21, 0, 0, 0⟩ ∧
      parseISO8601Duration strP3W1D = none := by
  decide

/-- Claim C6: the parser accepts the stated grammar and rejects
strings outside it: `P1Y2M10DT2H30M` yields years 1, months 2, days
10, hours 2, minutes 30, seconds 0; the empty string and `1Y` (missing
the leading `P`) fail; and `P1DT`, with a trailing `T` and no clock
component, is accepted as a zero-length clock part. -/
theorem c6_general_grammar_eval :
    parseISO8601Duration strGen = some ⟨1, 2, 10, 2, 30, 0⟩ ∧
      parseISO8601Duration strEmpty = none ∧
      parseISO8601Duration str1Y = none ∧
      parseISO8601Duration strP1DT = some ⟨0, 0, 1, 0, 0, 0⟩ := by
  decide

/-- Claim C7: all six fields of a successfully parsed duration are
claimed non-negative, the week form in particular.  The code computes
`days = 7 * weeks` in `int64` arithmetic with no overflow check: for
`weeks = 2^61` (which itself parses fine) the product wraps to the
negative value `-2^61`, so the parse succeeds with a negative `days`
field. -/
theorem c7_week_overflow_negative_days :
    parseISO8601Duration strOverflowWeeks =
        some ⟨0, 0, -2305843009213693952, 0, 0, 0⟩ ∧
      (-2305843009213693952 : ℤ) < 0 := by
  decide

/-- Claim C8: `applyISO8601Duration` applies the calendar components
(years, months, days) first, via calendar-aware arithmetic respecting
month lengths and leap years, and only then the clock components as
fixed offsets.  Besides the definitional decomposition, the concrete
instances show: Jan 31 2023 23:00 UTC plus `P1MT2H` lands on Mar 4
01:00 (month added to the original date first, Feb 31 spilling to Mar
3, then the two hours), which differs from the clock-first result of Mar
1 01:00; Feb 28 plus `P1D` is Feb 29 in 2024 but Mar 1 in 2023; and
Jan 31 plus `P1M` is Mar 2 in leap 2024 versus Mar 3 in 2023. -/
theorem c8_calendar_before_clock :
    (∀ (t : GoTime) (d : iso8601Duration),
        applyISO8601Duration t d = addClock (addDate t d.years d.months d.days) d) ∧
      applyISO8601Duration ⟨1675206000, 0⟩ ⟨0, 1, 0, 2, 0, 0⟩ = ⟨1677891600, 0⟩ ∧
      applyClockThenCalendar ⟨1675206000, 0⟩ ⟨0, 1, 0, 2, 0, 0⟩ = ⟨1677632400, 0⟩ ∧
      (⟨1677891600, 0⟩ : GoTime) ≠ ⟨1677632400, 0⟩ ∧
      applyISO8601Duration ⟨1709078400, 0⟩ ⟨0, 0, 1, 0, 0, 0⟩ = ⟨1709164800, 0⟩ ∧
      applyISO8601Duration ⟨1677542400, 0⟩ ⟨0, 0, 1, 0, 0, 0⟩ = ⟨1677628800, 0⟩ ∧
      applyISO8601Duration ⟨1706659200, 0⟩ ⟨0, 1, 0, 0, 0, 0⟩ = ⟨1709337600, 0⟩ ∧
      applyISO8601Duration ⟨1675123200, 0⟩ ⟨0, 1, 0, 0, 0, 0⟩ = ⟨1677801600, 0⟩ :=
  ⟨fun t d => rfl, by decide, by decide, by decide, by decide, by decide,
    by decide, by decide⟩

/-- Claim C9: applying the all-zero duration to any instant returns
that instant unchanged. -/
theorem c9_zero_duration_identity (t : GoTime) :
    applyISO8601Duration t zeroISO8601Duration = t := by
  show addClock (addDate t 0 0 0) zeroISO8601Duration = t
  rw [addDate_zero t]
  show (⟨t.sec + 0 * 3600 + 0 * 60 + 0, t.off⟩ : GoTime) = t
  obtain ⟨s, o⟩ := t
  norm_num

/-- Claim C10: for a degenerate interval whose end equals its start, no
instant is ever covered (`compareTimeToRange` is never 0), and the
shared boundary instant itself is classified after-or-equal
(result 1). -/
theorem c10_degenerate_interval (test s : GoTime) :
    compareTimeToRange test s s ≠ 0 ∧ compareTimeToRange s s s = 1 := by
  unfold compareTimeToRange
  refine ⟨?_, ?_⟩ <;> split_ifs <;> omega

/-- Witness for claim C10 at the degenerate interval at 11:00. -/
theorem c10_degenerate_interval_witness :
    compareTimeToRange ⟨43200, 0⟩ ⟨39600, 0⟩ ⟨39600, 0⟩ ≠ 0 ∧
      compareTimeToRange ⟨39600, 0⟩ ⟨39600, 0⟩ ⟨39600, 0⟩ = 1 :=
  c10_degenerate_interval ⟨43200, 0⟩ ⟨39600, 0⟩

end Agwc
